import Mathlib

/-!
# Clementine `CommandlineOptions` — verification development

Shallow embedding of `src/commandlineoptions.cpp`: the command-line parser
(`CommandlineOptions::Parse`, built on glibc `getopt_long` with argument
permutation), the emptiness predicate (`CommandlineOptions::is_empty`) and the
binary codec (`CommandlineOptions::Serialize` / `CommandlineOptions::Load`,
built on `QDataStream` in its big-endian default format).

Modelling conventions:
* C++ `int` fields become `Int`; validity (32-bit range) is an explicit
  predicate where a theorem needs it.
* Bytes are `Nat` values; every byte the encoder emits is reduced `% 256`.
* A `QUrl` is identified with its encoded byte sequence (`QUrl::toEncoded`),
  which is what both `QDataStream` serialization and `QUrl` equality are
  determined by.  `QUrl::fromLocalFile p` encodes as `"file://" ++ p`.
  Encoded URLs are ASCII, so the byte sequence of a URL string is the list of
  its character code points.
* `QFileInfo(value).absoluteFilePath()` depends on the process working
  directory and filesystem; the spec excludes path resolution from the core,
  so `Parse` is parameterised by an abstract resolver `fs : String → String`.
-/

namespace Clementine

/-- `CommandlineOptions::PlayerAction` (header not in the sources; constructor
names from the uses in `commandlineoptions.cpp`). -/
inductive PlayerAction where
  | Player_None
  | Player_Play
  | Player_PlayPause
  | Player_Pause
  | Player_Stop
  | Player_Previous
  | Player_Next
deriving DecidableEq, Repr

/-- `CommandlineOptions::UrlListAction` (header not in the sources; constructor
names from the uses in `commandlineoptions.cpp`). -/
inductive UrlListAction where
  | UrlList_Append
  | UrlList_Load
deriving DecidableEq, Repr

/-- The `CommandlineOptions` data fields (the trailing-underscore members of
the C++ class).  `urls` holds each `QUrl` as its encoded byte sequence. -/
structure CommandlineOptions where
  player_action : PlayerAction
  url_list_action : UrlListAction
  set_volume : Int
  volume_modifier : Int
  seek_to : Int
  play_track_at : Int
  show_osd : Bool
  urls : List (List Nat)
deriving DecidableEq, Repr

/-- The member initialisers of the `CommandlineOptions` constructor
(`commandlineoptions.cpp`, lines 50–61): `urls_` starts empty. -/
def defaultOptions : CommandlineOptions where
  player_action := .Player_None
  url_list_action := .UrlList_Append
  set_volume := -1
  volume_modifier := 0
  seek_to := -1
  play_track_at := -1
  show_osd := false
  urls := []

/-- `CommandlineOptions::is_empty` (lines 167–175): `url_list_action_` is not
inspected. -/
def CommandlineOptions.is_empty (o : CommandlineOptions) : Bool :=
  o.player_action == .Player_None &&
  o.set_volume == -1 &&
  o.volume_modifier == 0 &&
  o.seek_to == -1 &&
  o.play_track_at == -1 &&
  o.show_osd == false &&
  o.urls.isEmpty

/-- The byte sequence of an (ASCII) URL string: its character code points. -/
def strBytes (s : String) : List Nat :=
  s.data.map Char.toNat

/-- Numeric value of a digit string. -/
def digitsVal (cs : List Char) : Nat :=
  cs.foldl (fun a c => a * 10 + (c.toNat - 48)) 0

/-- `QString::toInt(&ok)` in base 10 (C locale): surrounding whitespace is
tolerated, then an optional sign and a non-empty digit string spanning the
rest; overflow of the 32-bit `int` range fails.  `none` models `ok == false`. -/
def qstringToInt (s : String) : Option Int :=
  let t := ((s.data.dropWhile Char.isWhitespace).reverse.dropWhile
      Char.isWhitespace).reverse
  let p : Int × List Char :=
    match t with
    | '-' :: rest => (-1, rest)
    | '+' :: rest => (1, rest)
    | _ => (1, t)
  if p.2 = [] then none
  else if p.2.all Char.isDigit then
    let v : Int := p.1 * (digitsVal p.2 : Nat)
    if v < -2147483648 ∨ 2147483647 < v then none else some v
  else none

/-- One option recognised by the `getopt_long` loop, i.e. one executed arm of
the `switch` in `CommandlineOptions::Parse` (other than `h` and `?`), with the
`optarg` it received where the option takes an argument. -/
inductive Event where
  | play
  | playPause
  | pause
  | stop
  | previous
  | next
  | append
  | load
  | showOsd
  | volumeUp
  | volumeDown
  | volume (arg : String)
  | seekTo (arg : String)
  | playTrack (arg : String)
deriving DecidableEq, Repr

/-- The `switch` arms of `CommandlineOptions::Parse` (lines 122–147): each
recognised option overwrites one field; the three numeric options substitute
`-1` when `QString::toInt` fails. -/
def applyEvent (o : CommandlineOptions) : Event → CommandlineOptions
  | .play => { o with player_action := .Player_Play }
  | .playPause => { o with player_action := .Player_PlayPause }
  | .pause => { o with player_action := .Player_Pause }
  | .stop => { o with player_action := .Player_Stop }
  | .previous => { o with player_action := .Player_Previous }
  | .next => { o with player_action := .Player_Next }
  | .append => { o with url_list_action := .UrlList_Append }
  | .load => { o with url_list_action := .UrlList_Load }
  | .showOsd => { o with show_osd := true }
  | .volumeUp => { o with volume_modifier := 4 }
  | .volumeDown => { o with volume_modifier := -4 }
  | .volume w => { o with set_volume := (qstringToInt w).getD (-1) }
  | .seekTo w => { o with seek_to := (qstringToInt w).getD (-1) }
  | .playTrack w => { o with play_track_at := (qstringToInt w).getD (-1) }

/-- Applying the recognised options in scanning order. -/
def applyEvents (o : CommandlineOptions) (es : List Event) : CommandlineOptions :=
  es.foldl applyEvent o

/-- The `player_action_` value written by an option, if it writes one. -/
def eventPlayer : Event → Option PlayerAction
  | .play => some .Player_Play
  | .playPause => some .Player_PlayPause
  | .pause => some .Player_Pause
  | .stop => some .Player_Stop
  | .previous => some .Player_Previous
  | .next => some .Player_Next
  | _ => none

/-- The `url_list_action_` value written by an option, if it writes one. -/
def eventUrlList : Event → Option UrlListAction
  | .append => some .UrlList_Append
  | .load => some .UrlList_Load
  | _ => none

/-- What a matched option does: request help (`h`), set a field (`simple`), or
set a field using a required argument (`withArg`). -/
inductive OptAction where
  | help
  | simple (e : Event)
  | withArg (f : String → Event)

/-- The short-option string `"hptusrfv:alk:o"` of the `getopt_long` call. -/
def shortOption : Char → Option OptAction
  | 'h' => some .help
  | 'p' => some (.simple .play)
  | 't' => some (.simple .playPause)
  | 'u' => some (.simple .pause)
  | 's' => some (.simple .stop)
  | 'r' => some (.simple .previous)
  | 'f' => some (.simple .next)
  | 'v' => some (.withArg Event.volume)
  | 'a' => some (.simple .append)
  | 'l' => some (.simple .load)
  | 'k' => some (.withArg Event.playTrack)
  | 'o' => some (.simple .showOsd)
  | _ => none

/-- One entry of the `kOptions` long-option table. -/
structure LongOption where
  name : String
  action : OptAction

/-- The `kOptions` long-option table (lines 64–85); list position is the
`option_index` that `getopt_long` reports for the entry. -/
def kOptions : List LongOption :=
  [ ⟨"help", .help⟩,
    ⟨"play", .simple .play⟩,
    ⟨"play-pause", .simple .playPause⟩,
    ⟨"pause", .simple .pause⟩,
    ⟨"stop", .simple .stop⟩,
    ⟨"previous", .simple .previous⟩,
    ⟨"next", .simple .next⟩,
    ⟨"volume", .withArg Event.volume⟩,
    ⟨"volume-up", .simple .volumeUp⟩,
    ⟨"volume-down", .simple .volumeDown⟩,
    ⟨"seek-to", .withArg Event.seekTo⟩,
    ⟨"append", .simple .append⟩,
    ⟨"load", .simple .load⟩,
    ⟨"play-track", .withArg Event.playTrack⟩,
    ⟨"show-osd", .simple .showOsd⟩ ]

/-- glibc long-option lookup: an exact name match wins; otherwise a unique
prefix match is accepted and an ambiguous or failed match is rejected.
Returns the table index (`option_index`) together with the entry. -/
def findLong (nameChars : List Char) : Option (Nat × LongOption) :=
  let name := String.mk nameChars
  match kOptions.enum.find? (fun p => p.2.name == name) with
  | some p => some p
  | none =>
    match kOptions.enum.filter (fun p => nameChars.isPrefixOf p.2.name.data) with
    | [p] => some p
    | _ => none

/-- Outcome of scanning one short-option cluster (one `-xyz` element):
the events recognised in order, then either completion (with a note whether
the next `argv` element was consumed as an `optarg`), the help option, or a
`?` (unknown option character, or required argument missing). -/
inductive ClusterResult where
  | done (es : List Event) (usedNext : Bool)
  | helpStop (es : List Event)
  | errStop (es : List Event)

/-- Scan the characters of a short-option cluster.  A required argument is the
rest of the cluster if non-empty, else the next `argv` element (`next`),
else a missing-argument error. -/
def scanCluster (next : Option String) : List Char → ClusterResult
  | [] => .done [] false
  | c :: cs =>
    match shortOption c with
    | none => .errStop []
    | some .help => .helpStop []
    | some (.simple e) =>
      match scanCluster next cs with
      | .done es used => .done (e :: es) used
      | .helpStop es => .helpStop (e :: es)
      | .errStop es => .errStop (e :: es)
    | some (.withArg f) =>
      match cs with
      | [] =>
        match next with
        | none => .errStop []
        | some w => .done [f w] true
      | _ => .done [f (String.mk cs)] false

/-- Outcome of the whole `getopt_long` loop: `ok` carries the recognised
events, the permuted `argv` tail (glibc permutation leaves the option elements
first, in order, then the operands, in order) and the final value of the
`option_index` variable; `helpStop`/`errStop` are the `return false` exits of
the `h` and `?`/`default` switch arms, with the events applied before them. -/
inductive ScanResult where
  | ok (es : List Event) (tailArgs : List String) (optIdx : Nat)
  | helpStop (es : List Event)
  | errStop (es : List Event)

/-- Does this `argv` element start a long option (`--name…`)?  The lone
`"--"` terminator is tested for separately before this. -/
def isLongHead (a : String) : Bool := a.data.take 2 == ['-', '-']

/-- Does this `argv` element start a short-option cluster (`-x…`)?  A lone
`"-"` does not: `getopt` treats it as an operand. -/
def isShortHead (a : String) : Bool :=
  a.data.take 1 == ['-'] && decide (2 ≤ a.data.length)

/-- An operand (non-option element) for `getopt`: neither the `"--"`
terminator nor a long or short option element. -/
def isNonOptionElem (a : String) : Bool :=
  !(a == "--" || isLongHead a || isShortHead a)

/-- How one `getopt_long` call handles the element at the scanning cursor:
stop on help or `?`, end option scanning at `"--"`, recognise an option
element (with its events, whether the next `argv` element was consumed as an
`optarg`, and the `option_index` written for a long option), or skip an
operand. -/
inductive Step where
  | stopHelp (es2 : List Event)
  | stopErr (es2 : List Event)
  | finishDD
  | opt (es2 : List Event) (takesNext : Bool) (longIdx : Option Nat)
  | operand

/-- Classify one `argv` element the way `getopt_long` does: the `"--"`
terminator; a long option (exact or unique-prefix name match, `=`-attached or
next-element argument, `?` on unknown/ambiguous names, on `=` given to a
no-argument option and on a missing required argument); a short-option
cluster (via `scanCluster`); or an operand.  `next` is the following `argv`
element, consumed as `optarg` when required. -/
def classifyElem (a : String) (next : Option String) : Step :=
  if a == "--" then .finishDD
  else if isLongHead a then
    let body := a.data.drop 2
    let nameChars := body.takeWhile (fun c => c != '=')
    let hasEq := nameChars.length < body.length
    let argStr := String.mk (body.drop (nameChars.length + 1))
    match findLong nameChars with
    | none => .stopErr []
    | some (idx, lo) =>
      match lo.action with
      | .help => if hasEq then .stopErr [] else .stopHelp []
      | .simple e => if hasEq then .stopErr [] else .opt [e] false (some idx)
      | .withArg f =>
        if hasEq then .opt [f argStr] false (some idx)
        else
          match next with
          | none => .stopErr []
          | some w => .opt [f w] true (some idx)
  else if isShortHead a then
    match scanCluster next (a.data.drop 1) with
    | .helpStop es2 => .stopHelp es2
    | .errStop es2 => .stopErr es2
    | .done es2 usedNext => .opt es2 usedNext none
  else .operand

/-- The `forever` loop of `CommandlineOptions::Parse` over glibc
`getopt_long` with argument permutation.  `optsElems` and `nonopts` rebuild the
permuted `argv` (program name excluded); `optIdx` is the `option_index`
variable, written only when a long option is matched (initially `0`,
line 88). -/
def scanGo : List String → List Event → List String → List String → Nat → ScanResult
  | [], es, optsElems, nonopts, optIdx => .ok es (optsElems ++ nonopts) optIdx
  | a :: rest, es, optsElems, nonopts, optIdx =>
    match classifyElem a rest.head? with
    | .stopHelp es2 => .helpStop (es ++ es2)
    | .stopErr es2 => .errStop (es ++ es2)
    | .finishDD => .ok es (optsElems ++ [a] ++ nonopts ++ rest) optIdx
    | .operand => scanGo rest es optsElems (nonopts ++ [a]) optIdx
    | .opt es2 takesNext longIdx =>
      let newIdx := longIdx.getD optIdx
      if takesNext then
        match rest with
        | w :: rest2 => scanGo rest2 (es ++ es2) (optsElems ++ [a, w]) nonopts newIdx
        | [] => .errStop (es ++ es2)
      else scanGo rest (es ++ es2) (optsElems ++ [a]) nonopts newIdx

/-- `QString::contains` for a pattern: some tail of the text starts with it. -/
def charsContain (pat : List Char) : List Char → Bool
  | [] => pat.isPrefixOf ([] : List Char)
  | c :: cs => pat.isPrefixOf (c :: cs) || charsContain pat cs

/-- The classification of one positional argument (lines 157–161): a value
containing `"://"` is kept as-is, anything else becomes
`QUrl::fromLocalFile(QFileInfo(value).absoluteFilePath())`, whose encoded form
is `"file://"` followed by the resolved absolute path. -/
def classifyArg (fs : String → String) (v : String) : List Nat :=
  if charsContain "://".data v.data then strBytes v
  else strBytes ("file://" ++ fs v)

/-- The observable outcome of `CommandlineOptions::Parse`: its `bool` return
value, the fields of the (mutated) object, and whether the help text was
written to standard output. -/
structure ParseResult where
  ret : Bool
  opts : CommandlineOptions
  helpPrinted : Bool
deriving DecidableEq, Repr

/-- `CommandlineOptions::Parse` on the argument list after the program name.
`fs` is the absolute-path resolver (`QFileInfo::absoluteFilePath`), external
to this core.  The positional loop (lines 156–162) runs over the permuted
`argv` from index `option_index + 1` — an index into the long-option table,
not into `argv` — so it collects the elements of the permuted tail from
position `optIdx` on. -/
def CommandlineOptions.Parse (fs : String → String) (args : List String) : ParseResult :=
  match scanGo args [] [] [] 0 with
  | .helpStop es => ⟨false, applyEvents defaultOptions es, true⟩
  | .errStop es => ⟨false, applyEvents defaultOptions es, false⟩
  | .ok es tailArgs optIdx =>
    let o := applyEvents defaultOptions es
    ⟨true, { o with urls := (tailArgs.drop optIdx).map (classifyArg fs) }, false⟩

/-- A concrete stand-in for the absolute-path resolver, used in closed
statements: resolves relative to the working directory `/cwd`. -/
def absModel (s : String) : String := "/cwd/" ++ s

/-- Modelled from the spec: the enum ordinals of `PlayerAction` live in the
header `commandlineoptions.h`, which is not among the sources; the spec fixes
them as the table order `{None, Play, PlayPause, Pause, Stop, Previous,
Next}` starting at `0`. -/
def playerActionOrd : PlayerAction → Int
  | .Player_None => 0
  | .Player_Play => 1
  | .Player_PlayPause => 2
  | .Player_Pause => 3
  | .Player_Stop => 4
  | .Player_Previous => 5
  | .Player_Next => 6

/-- Modelled from the spec: the enum ordinals of `UrlListAction` live in the
missing header; the spec fixes them as `{Append, Load}` starting at `0`. -/
def urlListActionOrd : UrlListAction → Int
  | .UrlList_Append => 0
  | .UrlList_Load => 1

/-- Reading a `PlayerAction` ordinal back (the `reinterpret_cast<qint32&>` of
`operator>>`); a value outside the enum's range is a decode failure. -/
def intToPlayerAction : Int → Option PlayerAction
  | 0 => some .Player_None
  | 1 => some .Player_Play
  | 2 => some .Player_PlayPause
  | 3 => some .Player_Pause
  | 4 => some .Player_Stop
  | 5 => some .Player_Previous
  | 6 => some .Player_Next
  | _ => none

/-- Reading a `UrlListAction` ordinal back; out of range is a decode
failure. -/
def intToUrlListAction : Int → Option UrlListAction
  | 0 => some .UrlList_Append
  | 1 => some .UrlList_Load
  | _ => none

/-- `QDataStream` encoding of a `quint32` (the length prefixes): four
big-endian bytes. -/
def u32Bytes (n : Nat) : List Nat :=
  [n / 16777216 % 256, n / 65536 % 256, n / 256 % 256, n % 256]

/-- `QDataStream` encoding of a `qint32`: four big-endian bytes of the
two's-complement representation. -/
def int32Bytes (v : Int) : List Nat :=
  u32Bytes (v % 4294967296).toNat

/-- Read four big-endian bytes as a `quint32`. -/
def readU32 : List Nat → Option (Nat × List Nat)
  | b0 :: b1 :: b2 :: b3 :: r =>
    some (b0 * 16777216 + b1 * 65536 + b2 * 256 + b3, r)
  | _ => none

/-- Read four big-endian bytes as a `qint32` (two's complement). -/
def readInt32 (bs : List Nat) : Option (Int × List Nat) :=
  (readU32 bs).map (fun p =>
    (if p.1 ≥ 2147483648 then (p.1 : Int) - 4294967296 else (p.1 : Int), p.2))

/-- Read a counted run of raw bytes (the payload of a `QByteArray`). -/
def readByteRun (n : Nat) (bs : List Nat) : Option (List Nat × List Nat) :=
  if n ≤ bs.length then some (bs.take n, bs.drop n) else none

/-- Read `count` serialized `QUrl`s, each a length-prefixed byte run. -/
def readQUrls : Nat → List Nat → Option (List (List Nat) × List Nat)
  | 0, bs => some ([], bs)
  | c + 1, bs =>
    match readU32 bs with
    | none => none
    | some (len, r) =>
      match readByteRun len r with
      | none => none
      | some (u, r2) =>
        match readQUrls c r2 with
        | none => none
        | some (us, r3) => some (u :: us, r3)

/-- `CommandlineOptions::Serialize` composed with `operator<<` (lines
177–186 and 201–212): the two enum ordinals as `qint32`, the four `int`
fields, the `bool` as one byte, then the `QList<QUrl>` as a `quint32` count
followed by each `QUrl`'s encoded form as a length-prefixed `QByteArray`. -/
def CommandlineOptions.Serialize (o : CommandlineOptions) : List Nat :=
  int32Bytes (playerActionOrd o.player_action) ++
  int32Bytes (urlListActionOrd o.url_list_action) ++
  int32Bytes o.set_volume ++
  int32Bytes o.volume_modifier ++
  int32Bytes o.seek_to ++
  int32Bytes o.play_track_at ++
  [if o.show_osd then 1 else 0] ++
  u32Bytes o.urls.length ++
  (o.urls.map (fun u => u32Bytes u.length ++ u)).flatten

/-- `CommandlineOptions::Load` composed with `operator>>` (lines 188–195 and
214–225), reading the fields back in order; truncated input or an ordinal
outside the enums is a decode failure. -/
def CommandlineOptions.Load (bs : List Nat) : Option CommandlineOptions := do
  let (pa, r1) ← readInt32 bs
  let player ← intToPlayerAction pa
  let (ua, r2) ← readInt32 r1
  let urlAction ← intToUrlListAction ua
  let (vol, r3) ← readInt32 r2
  let (mod, r4) ← readInt32 r3
  let (seek, r5) ← readInt32 r4
  let (track, r6) ← readInt32 r5
  match r6 with
  | [] => none
  | b :: r7 => do
    let (count, r8) ← readU32 r7
    let (us, _) ← readQUrls count r8
    pure ⟨player, urlAction, vol, mod, seek, track, b != 0, us⟩

/-- A representable `CommandlineOptions` value: the `int` fields are in the
32-bit range, the url count and each url's byte length fit a `quint32`, and
each url is a genuine byte sequence. -/
def ValidOptions (o : CommandlineOptions) : Prop :=
  -2147483648 ≤ o.set_volume ∧ o.set_volume < 2147483648 ∧
  -2147483648 ≤ o.volume_modifier ∧ o.volume_modifier < 2147483648 ∧
  -2147483648 ≤ o.seek_to ∧ o.seek_to < 2147483648 ∧
  -2147483648 ≤ o.play_track_at ∧ o.play_track_at < 2147483648 ∧
  o.urls.length < 4294967296 ∧
  ∀ u ∈ o.urls, u.length < 4294967296 ∧ ∀ b ∈ u, b < 256

instance (o : CommandlineOptions) : Decidable (ValidOptions o) := by
  unfold ValidOptions
  infer_instance

/-! ## Codec lemmas -/

theorem readU32_u32Bytes (n : Nat) (h : n < 4294967296) (r : List Nat) :
    readU32 (u32Bytes n ++ r) = some (n, r) := by
  simp only [u32Bytes, List.cons_append, List.nil_append, readU32,
    Option.some.injEq, Prod.mk.injEq, and_true]
  omega

theorem readInt32_int32Bytes (v : Int) (h1 : -2147483648 ≤ v)
    (h2 : v < 2147483648) (r : List Nat) :
    readInt32 (int32Bytes v ++ r) = some (v, r) := by
  have hn : (v % 4294967296).toNat < 4294967296 := by omega
  rw [int32Bytes, readInt32, readU32_u32Bytes _ hn]
  simp only [Option.map_some', Option.some.injEq, Prod.mk.injEq, and_true]
  split <;> omega

theorem readByteRun_append (u r : List Nat) :
    readByteRun u.length (u ++ r) = some (u, r) := by
  simp [readByteRun, List.take_left, List.drop_left]

theorem readQUrls_enc (us : List (List Nat)) (r : List Nat)
    (h : ∀ u ∈ us, u.length < 4294967296) :
    readQUrls us.length ((us.map (fun u => u32Bytes u.length ++ u)).flatten ++ r)
      = some (us, r) := by
  induction us generalizing r with
  | nil => simp [readQUrls]
  | cons u us ih =>
    have hu : u.length < 4294967296 := h u (List.mem_cons_self u us)
    have ihh : ∀ x ∈ us, x.length < 4294967296 :=
      fun x hx => h x (List.mem_cons_of_mem _ hx)
    have ih2 : ∀ r2 : List Nat,
        readQUrls us.length ((us.map (fun u => u32Bytes u.length ++ u)).flatten ++ r2)
          = some (us, r2) := fun r2 => ih r2 ihh
    simp only [List.map_cons, List.flatten_cons, List.length_cons,
      List.append_assoc, readQUrls, readU32_u32Bytes _ hu, readByteRun_append, ih2]

theorem intToPlayerAction_ord (p : PlayerAction) :
    intToPlayerAction (playerActionOrd p) = some p := by
  cases p <;> rfl

theorem intToUrlListAction_ord (a : UrlListAction) :
    intToUrlListAction (urlListActionOrd a) = some a := by
  cases a <;> rfl

theorem playerActionOrd_range (p : PlayerAction) :
    -2147483648 ≤ playerActionOrd p ∧ playerActionOrd p < 2147483648 := by
  cases p <;> exact ⟨by decide, by decide⟩

theorem urlListActionOrd_range (a : UrlListAction) :
    -2147483648 ≤ urlListActionOrd a ∧ urlListActionOrd a < 2147483648 := by
  cases a <;> exact ⟨by decide, by decide⟩

theorem readQUrls_enc_nil (us : List (List Nat))
    (h : ∀ u ∈ us, u.length < 4294967296) :
    readQUrls us.length (us.map (fun u => u32Bytes u.length ++ u)).flatten
      = some (us, []) := by
  have := readQUrls_enc us [] h
  simpa using this

set_option maxHeartbeats 1000000 in
/-- C1: deserializing the result of serializing any valid `CommandlineOptions`
value restores it field by field — `player_action`, `url_list_action`,
`set_volume`, `volume_modifier`, `seek_to`, `play_track_at`, `show_osd` and
`urls` — including sentinel `-1` values, an empty `urls` list, and mixed
remote/local url entries. -/
theorem C1_serialize_load_roundtrip (o : CommandlineOptions)
    (h : ValidOptions o) : CommandlineOptions.Load o.Serialize = some o := by
  obtain ⟨v1, v2, m1, m2, s1, s2, t1, t2, hc, hu⟩ := h
  cases o with
  | mk pa ua sv vm st pt osd urls =>
    simp only at v1 v2 m1 m2 s1 s2 t1 t2 hc hu
    have hlen : ∀ u ∈ urls, u.length < 4294967296 := fun u m => (hu u m).1
    cases osd <;>
    simp [CommandlineOptions.Serialize, CommandlineOptions.Load,
      List.append_assoc,
      readInt32_int32Bytes _ (playerActionOrd_range pa).1 (playerActionOrd_range pa).2,
      readInt32_int32Bytes _ (urlListActionOrd_range ua).1 (urlListActionOrd_range ua).2,
      readInt32_int32Bytes _ v1 v2, readInt32_int32Bytes _ m1 m2,
      readInt32_int32Bytes _ s1 s2, readInt32_int32Bytes _ t1 t2,
      intToPlayerAction_ord, intToUrlListAction_ord,
      readU32_u32Bytes _ hc, readQUrls_enc_nil _ hlen]

/-- C1 witness: the round trip evaluated at a concrete value with the `-1`
sentinels present and a mixed local/remote url list, and at the
default-constructed value whose url list is empty. -/
theorem C1_serialize_load_roundtrip_witness :
    (ValidOptions
      ⟨.Player_Play, .UrlList_Load, -1, 0, -1, -1, true,
        [strBytes "file:///cwd/song.mp3", strBytes "http://example.com/x"]⟩ ∧
      CommandlineOptions.Load
        (CommandlineOptions.Serialize
          ⟨.Player_Play, .UrlList_Load, -1, 0, -1, -1, true,
            [strBytes "file:///cwd/song.mp3", strBytes "http://example.com/x"]⟩)
        = some ⟨.Player_Play, .UrlList_Load, -1, 0, -1, -1, true,
            [strBytes "file:///cwd/song.mp3", strBytes "http://example.com/x"]⟩) ∧
    (ValidOptions defaultOptions ∧
      CommandlineOptions.Load (CommandlineOptions.Serialize defaultOptions)
        = some defaultOptions) :=
  ⟨⟨by decide, C1_serialize_load_roundtrip _ (by decide)⟩,
   ⟨by decide, C1_serialize_load_roundtrip _ (by decide)⟩⟩

/-- C2: `is_empty` is true exactly when `player_action` is `Player_None`,
`set_volume` is `-1`, `volume_modifier` is `0`, `seek_to` is `-1`,
`play_track_at` is `-1`, `show_osd` is false and `urls` is empty; and
`url_list_action` has no influence on the result. -/
theorem C2_is_empty_iff :
    (∀ o : CommandlineOptions,
      o.is_empty = true ↔
        o.player_action = .Player_None ∧ o.set_volume = -1 ∧
        o.volume_modifier = 0 ∧ o.seek_to = -1 ∧ o.play_track_at = -1 ∧
        o.show_osd = false ∧ o.urls = []) ∧
    (∀ (o : CommandlineOptions) (a : UrlListAction),
      ({ o with url_list_action := a } : CommandlineOptions).is_empty
        = o.is_empty) := by
  constructor
  · intro o
    simp [CommandlineOptions.is_empty, List.isEmpty_iff, and_assoc]
  · intro o a
    rfl

/-! ## Scanner lemmas -/

theorem scanGo_nonopt_cons (a : String) (h : isNonOptionElem a = true)
    (rest : List String) (es : List Event) (o n : List String) (i : Nat) :
    scanGo (a :: rest) es o n i = scanGo rest es o (n ++ [a]) i := by
  simp only [isNonOptionElem, Bool.not_eq_true', Bool.or_eq_false_iff] at h
  obtain ⟨⟨h1, h2⟩, h3⟩ := h
  have hc : classifyElem a rest.head? = .operand := by
    simp [classifyElem, h1, h2, h3]
  rw [scanGo, hc]

theorem scanGo_nonopt_run (pre : List String)
    (h : ∀ a ∈ pre, isNonOptionElem a = true) (rst : List String)
    (es : List Event) (o n : List String) (i : Nat) :
    scanGo (pre ++ rst) es o n i = scanGo rst es o (n ++ pre) i := by
  induction pre generalizing n with
  | nil => simp
  | cons a pre ih =>
    have ha := h a (List.mem_cons_self _ _)
    have h2 : ∀ b ∈ pre, isNonOptionElem b = true :=
      fun b hb => h b (List.mem_cons_of_mem _ hb)
    rw [List.cons_append, scanGo_nonopt_cons a ha, ih h2]
    simp [List.append_assoc]

set_option smartUnfolding false in
theorem scanGo_help_head (rest : List String) (es : List Event)
    (o n : List String) (i : Nat) :
    scanGo ("-h" :: rest) es o n i = .helpStop es ∧
    scanGo ("--help" :: rest) es o n i = .helpStop es := by
  constructor
  · have step : scanGo ("-h" :: rest) es o n i = .helpStop (es ++ []) := rfl
    simpa using step
  · have step : scanGo ("--help" :: rest) es o n i = .helpStop (es ++ []) := rfl
    simpa using step

set_option smartUnfolding false in
/-- C3 (amended): when `-h` or `--help` is the first option element scanned —
in particular at the head of the argument list, or preceded only by
non-option operands — `Parse` writes the help text, returns failure with all
fields still at their defaults, and never observes any later flag (so
`["-h", "-p"]` can never yield `Player_Play`).  The claim's quantification
over every list containing `-h` does not survive: an earlier option that
requires an argument can swallow `-h` as its `optarg` (see the
counterexample), and an earlier parse error stops scanning before `-h`. -/
theorem C3_help_short_circuit :
    ∀ (fs : String → String) (pre rest : List String),
      (∀ a ∈ pre, isNonOptionElem a = true) →
      CommandlineOptions.Parse fs (pre ++ "-h" :: rest)
          = ⟨false, defaultOptions, true⟩ ∧
      CommandlineOptions.Parse fs (pre ++ "--help" :: rest)
          = ⟨false, defaultOptions, true⟩ := by
  intro fs pre rest h
  constructor
  · unfold CommandlineOptions.Parse
    rw [scanGo_nonopt_run pre h, (scanGo_help_head _ _ _ _ _).1]
    rfl
  · unfold CommandlineOptions.Parse
    rw [scanGo_nonopt_run pre h, (scanGo_help_head _ _ _ _ _).2]
    rfl

/-- C3 witness: the short-circuit applied with one operand before `-h` and a
flag after it. -/
theorem C3_help_short_circuit_witness :
    (∀ a ∈ ["x.mp3"], isNonOptionElem a = true) ∧
    CommandlineOptions.Parse absModel (["x.mp3"] ++ "-h" :: ["-p"])
        = ⟨false, defaultOptions, true⟩ :=
  ⟨by decide, (C3_help_short_circuit absModel ["x.mp3"] ["-p"] (by decide)).1⟩

set_option smartUnfolding false in
/-- C3 counterexample: `["-v", "-h"]` contains `-h`, yet `Parse` consumes
`-h` as the required argument of `-v`, succeeds (`true`: an Options value is
produced) and never writes the help text. -/
theorem C3_counterexample_help_as_optarg :
    (CommandlineOptions.Parse absModel ["-v", "-h"]).ret = true ∧
    (CommandlineOptions.Parse absModel ["-v", "-h"]).helpPrinted = false := by
  decide

set_option smartUnfolding false in
/-- C4 (amended): an unrecognised flag, or a flag missing its required
argument, aborts parsing at once — flags after it are never processed — and
`Parse` signals this by returning `false` with the options object untouched;
but this outcome is not distinguishable by the caller from the help outcome,
because `-h` also returns `false` with an untouched object (only the
help-text side effect differs). -/
theorem C4_parse_error_abort :
    ∀ fs : String → String,
      CommandlineOptions.Parse fs ["--not-a-flag"]
          = ⟨false, defaultOptions, false⟩ ∧
      CommandlineOptions.Parse fs ["--not-a-flag", "-p"]
          = ⟨false, defaultOptions, false⟩ ∧
      CommandlineOptions.Parse fs ["-v"] = ⟨false, defaultOptions, false⟩ ∧
      CommandlineOptions.Parse fs ["--volume"]
          = ⟨false, defaultOptions, false⟩ ∧
      CommandlineOptions.Parse fs ["-h"] = ⟨false, defaultOptions, true⟩ := by
  intro fs
  exact ⟨rfl, rfl, rfl, rfl, rfl⟩

set_option smartUnfolding false in
/-- C4 counterexample: the caller of `Parse` observes the returned `bool` and
the options object; on `["--not-a-flag"]` (a `ParseError` per the claim) both
observations coincide exactly with those on `["-h"]` (the `HelpRequested`
outcome), so the two are not distinguishable by the caller. -/
theorem C4_counterexample_error_equals_help :
    (CommandlineOptions.Parse absModel ["--not-a-flag"]).ret
        = (CommandlineOptions.Parse absModel ["-h"]).ret ∧
    (CommandlineOptions.Parse absModel ["--not-a-flag"]).opts
        = (CommandlineOptions.Parse absModel ["-h"]).opts := by
  decide

set_option smartUnfolding false in
/-- C5: for the single-valued fields the last processed flag wins with no
accumulation — after any event sequence, a final `player_action`-setting or
`url_list_action`-setting option determines the field regardless of what came
before — and concretely `["-p", "-s"]` parses successfully with
`player_action = Player_Stop` and `["-a", "-l"]` parses successfully with
`url_list_action = UrlList_Load`. -/
theorem C5_last_flag_wins :
    (∀ (o : CommandlineOptions) (es : List Event) (e : Event) (p : PlayerAction),
      eventPlayer e = some p → (applyEvents o (es ++ [e])).player_action = p) ∧
    (∀ (o : CommandlineOptions) (es : List Event) (e : Event) (u : UrlListAction),
      eventUrlList e = some u → (applyEvents o (es ++ [e])).url_list_action = u) ∧
    (∀ fs : String → String,
      (CommandlineOptions.Parse fs ["-p", "-s"]).ret = true ∧
      (CommandlineOptions.Parse fs ["-p", "-s"]).opts.player_action
          = .Player_Stop) ∧
    (∀ fs : String → String,
      (CommandlineOptions.Parse fs ["-a", "-l"]).ret = true ∧
      (CommandlineOptions.Parse fs ["-a", "-l"]).opts.url_list_action
          = .UrlList_Load) := by
  refine ⟨?_, ?_, fun fs => ⟨rfl, rfl⟩, fun fs => ⟨rfl, rfl⟩⟩
  · intro o es e p hp
    rw [applyEvents, List.foldl_append]
    cases e <;> simp_all [eventPlayer, applyEvent]
  · intro o es e u hu
    rw [applyEvents, List.foldl_append]
    cases e <;> simp_all [eventUrlList, applyEvent]

/-- C5 witness: the last-wins laws applied to a `play` event followed by a
`stop` event, and an `append` event followed by a `load` event. -/
theorem C5_last_flag_wins_witness :
    (applyEvents defaultOptions ([Event.play] ++ [Event.stop])).player_action
        = .Player_Stop ∧
    (applyEvents defaultOptions ([Event.append] ++ [Event.load])).url_list_action
        = .UrlList_Load :=
  ⟨C5_last_flag_wins.1 defaultOptions [Event.play] Event.stop _ rfl,
   C5_last_flag_wins.2.1 defaultOptions [Event.append] Event.load _ rfl⟩

set_option smartUnfolding false in
/-- C6: a `--volume`, `--seek-to` or `--play-track` whose argument does not
parse as an integer is not a parse failure: the field gets the sentinel `-1`
and scanning continues with the following flags (here a trailing `-p` is
still processed); concretely `["--volume", "notanumber"]` succeeds with
`set_volume = -1`. -/
theorem C6_malformed_numeric_recovered :
    ∀ (fs : String → String) (w : String), qstringToInt w = none →
      CommandlineOptions.Parse fs ["--volume", w, "-p"]
          = ⟨true, { defaultOptions with
                     set_volume := -1
                     player_action := .Player_Play }, false⟩ ∧
      CommandlineOptions.Parse fs ["--seek-to", w, "-p"]
          = ⟨true, { defaultOptions with
                     seek_to := -1
                     player_action := .Player_Play }, false⟩ ∧
      CommandlineOptions.Parse fs ["--play-track", w, "-p"]
          = ⟨true, { defaultOptions with
                     play_track_at := -1
                     player_action := .Player_Play }, false⟩ ∧
      (CommandlineOptions.Parse fs ["--volume", "notanumber"]).ret = true ∧
      (CommandlineOptions.Parse fs ["--volume", "notanumber"]).opts.set_volume
          = -1 := by
  intro fs w h
  refine ⟨?_, ?_, ?_, rfl, rfl⟩
  · have base : CommandlineOptions.Parse fs ["--volume", w, "-p"]
        = ⟨true, { applyEvents defaultOptions [Event.volume w, Event.play] with
                   urls := [] }, false⟩ := rfl
    rw [base]
    simp [applyEvents, applyEvent, h, defaultOptions]
  · have base : CommandlineOptions.Parse fs ["--seek-to", w, "-p"]
        = ⟨true, { applyEvents defaultOptions [Event.seekTo w, Event.play] with
                   urls := [] }, false⟩ := rfl
    rw [base]
    simp [applyEvents, applyEvent, h, defaultOptions]
  · have base : CommandlineOptions.Parse fs ["--play-track", w, "-p"]
        = ⟨true, { applyEvents defaultOptions [Event.playTrack w, Event.play] with
                   urls := [] }, false⟩ := rfl
    rw [base]
    simp [applyEvents, applyEvent, h, defaultOptions]

/-- C6 witness: the recovery applied to the argument `"notanumber"`. -/
theorem C6_malformed_numeric_recovered_witness :
    qstringToInt "notanumber" = none ∧
    CommandlineOptions.Parse absModel ["--volume", "notanumber", "-p"]
        = ⟨true, { defaultOptions with
                   set_volume := -1
                   player_action := .Player_Play }, false⟩ :=
  ⟨by decide,
   (C6_malformed_numeric_recovered absModel "notanumber" (by decide)).1⟩

set_option smartUnfolding false in
/-- C7 (claim right, code wrong): the positional loop starts at
`option_index + 1`, where `option_index` is an index into the long-option
table, not into `argv`; after `["--load", "x.mp3"]` it is `12` (the table
position of `load`), so `x.mp3` is skipped entirely and `urls` stays empty,
against the claim that every remaining non-flag argument is appended.  With
no flags at all (`option_index` still `0`) the claim's concrete scenario does
hold: `["song.mp3", "http://example.com/x"]` yields the local-file url of
`song.mp3` followed by the remote url kept as-is. -/
theorem C7_positional_collection :
    ∀ fs : String → String,
      CommandlineOptions.Parse fs ["--load", "x.mp3"]
          = ⟨true, { defaultOptions with url_list_action := .UrlList_Load },
             false⟩ ∧
      CommandlineOptions.Parse fs ["song.mp3", "http://example.com/x"]
          = ⟨true, { defaultOptions with
                     urls := [strBytes ("file://" ++ fs "song.mp3"),
                              strBytes "http://example.com/x"] }, false⟩ :=
  fun fs => ⟨rfl, rfl⟩

set_option smartUnfolding false in
/-- C8 (claim right, code wrong): on `["-p", "a.mp3", "-o", "b.mp3"]` the
flags are processed (`player_action = Player_Play`, `show_osd = true`), but
because only short options occur, `option_index` keeps its initial `0` and
the positional loop walks the whole permuted `argv`: `urls` receives four
entries — the flag elements `-p` and `-o` turned into local-file urls, then
`a.mp3` and `b.mp3` — not the claimed two. -/
theorem C8_interspersed_operands :
    ∀ fs : String → String,
      CommandlineOptions.Parse fs ["-p", "a.mp3", "-o", "b.mp3"]
          = ⟨true,
             { defaultOptions with
               player_action := .Player_Play
               show_osd := true
               urls := [strBytes ("file://" ++ fs "-p"),
                        strBytes ("file://" ++ fs "-o"),
                        strBytes ("file://" ++ fs "a.mp3"),
                        strBytes ("file://" ++ fs "b.mp3")] },
             false⟩ :=
  fun fs => rfl

set_option smartUnfolding false in
/-- C9 (amended): `is_empty` inspects only `player_action`, `set_volume`,
`volume_modifier`, `seek_to`, `play_track_at`, `show_osd` and `urls`, so a
deviating `url_list_action` alone does not falsify it: `["--load"]` parses to
`url_list_action = UrlList_Load` yet `is_empty` is true.  `["-l"]` does make
`is_empty` false, but only because the `-l` element itself is collected into
`urls` by the positional loop, and `["-p"]` makes it false through
`player_action`; a bare launch (`[]`) is empty. -/
theorem C9_is_empty_after_parse :
    ∀ fs : String → String,
      (CommandlineOptions.Parse fs []).opts.is_empty = true ∧
      (CommandlineOptions.Parse fs ["--load"]).opts.is_empty = true ∧
      (CommandlineOptions.Parse fs ["--load"]).opts.url_list_action
          = .UrlList_Load ∧
      (CommandlineOptions.Parse fs ["-l"]).opts.is_empty = false ∧
      (CommandlineOptions.Parse fs ["-l"]).opts.urls
          = [strBytes ("file://" ++ fs "-l")] ∧
      (CommandlineOptions.Parse fs ["-p"]).opts.is_empty = false :=
  fun fs => ⟨rfl, rfl, rfl, rfl, rfl, rfl⟩

set_option smartUnfolding false in
/-- C9 counterexample: parsing `["--load"]` (a flag combination with no
positional arguments that `Parse` accepts) leaves `url_list_action` deviating
from its default `UrlList_Append`, yet `is_empty` is true — refuting
"`is_empty` is false as soon as any field deviates from its default". -/
theorem C9_counterexample_load_only :
    (CommandlineOptions.Parse absModel ["--load"]).ret = true ∧
    (CommandlineOptions.Parse absModel ["--load"]).opts.url_list_action
        = .UrlList_Load ∧
    (CommandlineOptions.Parse absModel ["--load"]).opts.is_empty = true := by
  decide

set_option smartUnfolding false in
/-- C10: `Parse` is not atomic on failure: an unrecognised flag after valid
flags returns `false`, but the fields already written keep their new values —
`["-p", "--not-a-flag"]` leaves `player_action = Player_Play` (not the
default `Player_None`), and `["-v", "3", "--not-a-flag"]` leaves
`set_volume = 3`. -/
theorem C10_no_rollback_on_error :
    ∀ fs : String → String,
      CommandlineOptions.Parse fs ["-p", "--not-a-flag"]
          = ⟨false, { defaultOptions with player_action := .Player_Play },
             false⟩ ∧
      CommandlineOptions.Parse fs ["-v", "3", "--not-a-flag"]
          = ⟨false, { defaultOptions with set_volume := 3 }, false⟩ ∧
      defaultOptions.player_action = .Player_None ∧
      defaultOptions.set_volume = -1 :=
  fun fs => ⟨rfl, rfl, rfl, rfl⟩

end Clementine
